import Mathlib

/-!
Shallow embedding of the range-streamed read path of `src/main.py` (httpfs).

Conventions of the embedding:
* Byte strings are `List Nat` (one `Nat` per byte value).
* The remote file ("origin") is a `List Nat`; a cooperative origin answers a
  range request `bytes=off-(off+n-1)` with `(origin.drop off).take n`
  (clipped at end of file), which is exactly the success model assumed by the
  byte-fidelity claim.
* Python's dynamic typing matters in one place: `get_file_chunk` passes the
  single integer `chunk_start` where `fetch_chunks_sync` expects a list of
  offsets.  `PyVal` distinguishes the two; iterating over an `int`
  (the list comprehension in `fetch_chunks_async`) raises `TypeError`.
* The process-wide mutable globals of `main.py` (`file_chunk_cache`,
  `ongoing_requests`, `prefetch_threads`) are gathered in an explicit state
  record `FSState` that is threaded through the translated operations.
  Stateful functions return their results together with the new state and,
  where a claim is about observable HTTP traffic, the list of GET offsets the
  call issues.
* `file_chunk_cache` is a `cachetools.LRUCache(maxsize=NUM_CACHE_CHUNKS)`.
  It is modelled as an association list in recency order (head = most
  recently used): lookup of a present key moves it to the front, insertion
  of a fresh key when the cache is full drops the last (least recently used)
  entry.  `__contains__` does not touch recency; `__getitem__` and `get` do.
* Blocking (`event.wait()` on an unset event) is modelled by the outcome
  `ChunkOutcome.blocked`; a follower that runs after the leader has signalled
  is modelled by calling `get_file_chunk` in a state whose in-flight entry
  carries a set event.
-/

/-- `DEFAULT_CHUNK_SIZE = 2 * 1024 * 1024` from `main.py`. -/
def DEFAULT_CHUNK_SIZE : Nat := 2 * 1024 * 1024

/-- `CACHE_MAX_SIZE = 200 * 1024 * 1024` from `main.py`. -/
def CACHE_MAX_SIZE : Nat := 200 * 1024 * 1024

/-- `NUM_CACHE_CHUNKS = CACHE_MAX_SIZE // DEFAULT_CHUNK_SIZE` from `main.py`. -/
def NUM_CACHE_CHUNKS : Nat := CACHE_MAX_SIZE / DEFAULT_CHUNK_SIZE

/-- `MAX_PREFETCH_AHEAD = 100 * 1024 * 1024` from `main.py`. -/
def MAX_PREFETCH_AHEAD : Nat := 100 * 1024 * 1024

/-- `PREFETCH_BATCH_SIZE = 8` from `main.py`. -/
def PREFETCH_BATCH_SIZE : Nat := 8

/-- A byte string, one `Nat` per byte. -/
abbrev Bytes := List Nat

/-- A chunk key: the pair (file url, chunk-aligned byte offset). -/
abbrev ChunkKey := String × Nat

/-- Python exceptions that the embedded code can raise. -/
inductive PyErr
  | typeError
  | fetchError
deriving DecidableEq

/-- A value stored in `file_chunk_cache`.  Normally a bytes object; the dead
success branch of `get_file_chunk` would store the raw return value of
`fetch_chunks_sync`, which is a Python list of bytes objects. -/
inductive PyObj
  | bytes (b : Bytes)
  | pylist (l : List Bytes)
deriving DecidableEq

/-- A dynamically typed Python argument: `fetch_chunks_sync` receives either a
single integer (as passed by `get_file_chunk`) or a list of offsets (as passed
by `HTTPFS.read` and `prefetch`). -/
inductive PyVal
  | int (n : Nat)
  | list (l : List Nat)
deriving DecidableEq

/-- Association-list lookup, the embedding of Python `dict` lookup and of
membership in the chunk cache. -/
def findVal {κ α : Type} [DecidableEq κ] : List (κ × α) → κ → Option α
  | [], _ => none
  | (k, v) :: rest, key => if k = key then some v else findVal rest key

/-- Remove every binding of a key from an association list. -/
def eraseKey {κ α : Type} [DecidableEq κ] (c : List (κ × α)) (k : κ) : List (κ × α) :=
  c.filter (fun e => decide (e.1 ≠ k))

/-- Model of `cachetools.LRUCache.__getitem__` composed with the preceding
`in` test: on a hit the entry's value is returned and the entry moves to the
front (most recently used); on a miss the cache is unchanged. -/
def lruGet {κ α : Type} [DecidableEq κ] (c : List (κ × α)) (k : κ) :
    Option α × List (κ × α) :=
  match findVal c k with
  | some v => (some v, (k, v) :: eraseKey c k)
  | none => (none, c)

/-- Model of `key in cache` (`cachetools.Cache.__contains__`): a pure
membership test that does not touch recency. -/
def lruContains {κ α : Type} [DecidableEq κ] (c : List (κ × α)) (k : κ) : Bool :=
  (findVal c k).isSome

/-- Model of `cachetools.LRUCache.__setitem__` with unit-cost entries:
updating a present key moves it to the front; inserting a fresh key into a
full cache first evicts the least recently used entry (the last one). -/
def lruInsert {κ α : Type} [DecidableEq κ] (maxsize : Nat) (c : List (κ × α))
    (k : κ) (v : α) : List (κ × α) :=
  if (findVal c k).isSome then (k, v) :: eraseKey c k
  else if maxsize ≤ c.length then (k, v) :: c.dropLast
  else (k, v) :: c

/-- The mutable globals of `main.py` that the read path touches:
`file_chunk_cache` (LRU, recency order, head most recent), `ongoing_requests`
(chunk key to the `threading.Event`'s state: `true` when the event is set),
and `prefetch_threads` (urls whose per-URL prefetch token is installed). -/
structure FSState where
  file_chunk_cache : List (ChunkKey × PyObj)
  ongoing_requests : List (ChunkKey × Bool)
  prefetch_threads : List String
deriving DecidableEq

/-- `fetch_chunk` (main.py lines 183-189) in its success model: the origin
honours `Range: bytes=offset-(offset+chunk_size-1)` and returns exactly its
bytes for that range, clipped at end of file. -/
def fetch_chunk (origin : Bytes) (offset chunk_size : Nat) : Bytes :=
  (origin.drop offset).take chunk_size

/-- `fetch_chunks_async` (main.py lines 193-196) with a per-offset fetch
oracle standing for `fetch_chunk(session, url, offset, chunk_size)`.
The list comprehension `for offset in offsets` iterates over its argument:
iterating over a Python `int` raises `TypeError`; `asyncio.gather` fails the
whole batch on the first failing range. -/
def fetch_chunks_async (fetch : Nat → Except PyErr Bytes) (offsets : PyVal) :
    Except PyErr (List Bytes) :=
  match offsets with
  | PyVal.int _ => Except.error PyErr.typeError
  | PyVal.list offs => offs.mapM fetch

/-- `fetch_chunks_sync` (main.py lines 200-201): `asyncio.run` is transparent
to the value, so this is the async function itself. -/
def fetch_chunks_sync (fetch : Nat → Except PyErr Bytes) (offsets : PyVal) :
    Except PyErr (List Bytes) :=
  fetch_chunks_async fetch offsets

/-- Outcome of a `get_file_chunk` call: a returned value, a propagated
exception, or a thread blocked forever on an unset event. -/
inductive ChunkOutcome
  | ok (v : PyObj)
  | err (e : PyErr)
  | blocked
deriving DecidableEq

/-- The code a follower runs after `event.wait()` returns (main.py lines
220-222): `return file_chunk_cache.get(cache_key, b"")` under the cache lock.
`get` touches recency on a hit and returns the empty bytes object on a miss. -/
def follower_resume (s : FSState) (cache_key : ChunkKey) : PyObj × FSState :=
  match lruGet s.file_chunk_cache cache_key with
  | (some v, c') => (v, { s with file_chunk_cache := c' })
  | (none, _) => (PyObj.bytes [], s)

/-- `get_file_chunk` (main.py lines 204-230).  `fetch` is the per-offset fetch
oracle that `fetch_chunks_sync` would apply to each offset if it were handed a
list; the call site passes the bare integer `chunk_start` (`PyVal.int`),
exactly as the source does.  The follower branch models the call arriving
after the leader has signalled (event set); arriving before (event unset) is
the `blocked` outcome. -/
def get_file_chunk (fetch : Nat → Except PyErr Bytes) (s : FSState)
    (file_url : String) (chunk_start chunk_size : Nat) : ChunkOutcome × FSState :=
  let cache_key : ChunkKey := (file_url, chunk_start)
  match lruGet s.file_chunk_cache cache_key with
  | (some v, c') => (ChunkOutcome.ok v, { s with file_chunk_cache := c' })
  | (none, _) =>
    match findVal s.ongoing_requests cache_key with
    | some ev =>
      if ev then
        let r := follower_resume s cache_key
        (ChunkOutcome.ok r.1, r.2)
      else (ChunkOutcome.blocked, s)
    | none =>
      let s1 := { s with ongoing_requests := (cache_key, false) :: s.ongoing_requests }
      match fetch_chunks_sync fetch (PyVal.int chunk_start) with
      | Except.error e => (ChunkOutcome.err e, s1)
      | Except.ok chunks =>
        let s2 := { s1 with
          file_chunk_cache :=
            lruInsert NUM_CACHE_CHUNKS s1.file_chunk_cache cache_key (PyObj.pylist chunks) }
        let s3 := { s2 with ongoing_requests := eraseKey s2.ongoing_requests cache_key }
        (ChunkOutcome.ok (PyObj.pylist chunks), s3)

/-- The inner `for _ in range(PREFETCH_BATCH_SIZE)` loop of `prefetch`
(main.py lines 243-253): starting from `current`, accumulate up to `n`
iterations' worth of offsets, skipping (but still consuming an iteration for)
offsets already in the cache, stopping at `end_offset`.  Returns the offsets
to fetch and the advanced `current`. -/
def collectBatch (cache : List (ChunkKey × PyObj)) (url : String)
    (chunk_size end_offset : Nat) : Nat → Nat → List Nat × Nat
  | 0, current => ([], current)
  | Nat.succ n, current =>
    if end_offset ≤ current then ([], current)
    else if lruContains cache (url, current) then
      collectBatch cache url chunk_size end_offset n (current + chunk_size)
    else
      let r := collectBatch cache url chunk_size end_offset n (current + chunk_size)
      (current :: r.1, r.2)

/-- The outer `while current < end_offset` loop of `prefetch` (main.py lines
240-264).  `fuel` bounds the recursion; the Python loop terminates whenever
`chunk_size > 0` because every round with a non-empty batch strictly advances
`current`, and the wrapper `prefetch` supplies more fuel than any possible
number of rounds, so the fuel-exhaustion branch is never taken there.
On a batch-fetch failure the exception propagates immediately (first
component `some e`) with the state as it was at the failure point. -/
def prefetch_loop (fetch : Nat → Except PyErr Bytes) (url : String)
    (chunk_size end_offset : Nat) : Nat → Nat → FSState → Option PyErr × FSState
  | 0, _, s => (none, s)
  | Nat.succ fuel, current, s =>
    if end_offset ≤ current then (none, s)
    else
      let b := collectBatch s.file_chunk_cache url chunk_size end_offset
        PREFETCH_BATCH_SIZE current
      if b.1.isEmpty then (none, s)
      else
        match fetch_chunks_sync fetch (PyVal.list b.1) with
        | Except.error e => (some e, s)
        | Except.ok chunks =>
          let cache' := (List.zip b.1 chunks).foldl
            (fun c p => lruInsert NUM_CACHE_CHUNKS c (url, p.1) (PyObj.bytes p.2))
            s.file_chunk_cache
          prefetch_loop fetch url chunk_size end_offset fuel b.2
            { s with file_chunk_cache := cache' }

/-- `prefetch` (main.py lines 233-268).  Only on normal completion of the
loop does the worker remove its `prefetch_threads` token (lines 266-268);
an exception from the batch fetch propagates past that cleanup. -/
def prefetch (fetch : Nat → Except PyErr Bytes) (s : FSState) (url : String)
    (start_offset chunk_size max_prefetch_bytes : Nat) : Option PyErr × FSState :=
  let end_offset := start_offset + max_prefetch_bytes
  match prefetch_loop fetch url chunk_size end_offset (max_prefetch_bytes + 1)
    start_offset s with
  | (some e, s') => (some e, s')
  | (none, s') => (none, { s' with prefetch_threads := s'.prefetch_threads.erase url })

/-- `maybe_prefetch` (main.py lines 168-180).  Returns the argument triple
`(start, chunk_size, byte count)` of the `prefetch` thread it spawns, or
`none` when it spawns nothing.  It reads only the chunk cache — it neither
consults nor updates `prefetch_threads`. -/
def maybe_prefetch (s : FSState) (url : String) (current_read_offset : Nat) :
    Option (Nat × Nat × Nat) :=
  let cached_offsets := s.file_chunk_cache.filterMap
    (fun e => if e.1.1 = url then some e.1.2 else none)
  let highest_cached :=
    match cached_offsets with
    | [] => current_read_offset
    | o :: rest => rest.foldl max o
  let target := current_read_offset + MAX_PREFETCH_AHEAD
  if highest_cached < target then
    some (highest_cached, DEFAULT_CHUNK_SIZE, target - highest_cached)
  else none

/-- The prefetch-spawning logic of `HTTPFS.open` (main.py lines 341-361):
spawn a warmup worker only when chunk `(url, 0)` is not cached and no
prefetch token exists for the url, installing the token before starting the
thread.  Returns the spawned worker's `prefetch` argument triple, if any. -/
def open_spawn (s : FSState) (url : String) (file_size : Nat) :
    Option (Nat × Nat × Nat) × FSState :=
  if lruContains s.file_chunk_cache (url, 0) then (none, s)
  else if s.prefetch_threads.contains url then (none, s)
  else
    (some (0, DEFAULT_CHUNK_SIZE, min (min CACHE_MAX_SIZE file_size) (10 * 1024 * 1024)),
     { s with prefetch_threads := url :: s.prefetch_threads })

/-- Python `range(start, stop, step)` for a positive `step` (the only way the
source calls it): `ceil((stop - start) / step)` values `start + step * i`. -/
def pyRange (start stop step : Nat) : List Nat :=
  (List.range ((stop - start + step - 1) / step)).map (fun i => start + step * i)

/-- The chunk offsets `HTTPFS.read` fetches (main.py lines 374-379):
`range(start_offset, off + size, chunk_size)`, forced to `[start_offset]`
when empty. -/
def read_offsets (chunk_size off size : Nat) : List Nat :=
  let start_offset := off - off % chunk_size
  let offsets := pyRange start_offset (off + size) chunk_size
  if offsets.isEmpty then [start_offset] else offsets

/-- The assembly loop of `HTTPFS.read` (main.py lines 386-393): the first
chunk is taken from `skip` onwards, the remaining chunks whole. -/
def assemble (skip : Nat) : List Bytes → Bytes
  | [] => []
  | c :: rest => c.drop skip ++ rest.flatten

/-- The value computation of `HTTPFS.read` (main.py lines 373-395) with the
chunk size as an explicit parameter: fetch every covering chunk from the
origin, splice, and trim to `size` bytes. -/
def httpfs_read (chunk_size : Nat) (origin : Bytes) (off size : Nat) : Bytes :=
  let start_offset := off - off % chunk_size
  let offsets := read_offsets chunk_size off size
  let chunks := offsets.map (fun o => fetch_chunk origin o chunk_size)
  (assemble (off - start_offset) chunks).take size

/-- `HTTPFS.read` (main.py lines 363-401) as a state transformer: returns the
bytes handed to the caller, the list of GET offsets this call itself issues
via `fetch_chunks_sync(url, offsets, DEFAULT_CHUNK_SIZE)` (line 383), and the
state of the shared tables afterwards.  The call fetches every covering
offset unconditionally — it reads neither `file_chunk_cache` nor
`ongoing_requests`, inserts nothing, and `maybe_prefetch` (line 398) mutates
none of the three tables (it only spawns a thread), so the state is returned
unchanged. -/
def HTTPFS.read (origin : Bytes) (s : FSState) (off size : Nat) :
    Bytes × List Nat × FSState :=
  (httpfs_read DEFAULT_CHUNK_SIZE origin off size,
   read_offsets DEFAULT_CHUNK_SIZE off size,
   s)

/-- Outcome of `get_file_attr`. -/
inductive AttrOutcome
  | ok (size : Nat)
  | fileNotFound
deriving DecidableEq

/-- `get_file_attr` (main.py lines 49-83) restricted to the data the claims
are about.  `head_result` is the outcome of `requests.head`: `some n` for a
reply with Content-Length `n`, `none` when the request raises (the `except`
branch sets `size = 0`).  Arguments `inode` and `url` are the lookups in
`INODE_MAP` and `FILES`; `cache` is `file_attributes_cache` as a map from
filename to the cached `st_size`.  Returns the reported size, the new cache
— the attribute is cached unconditionally at line 81 — and whether this call
issued the HEAD probe. -/
def get_file_attr (head_result : Option Nat) (inode : Option Nat)
    (url : Option String) (cache : List (String × Nat)) (filename : String) :
    AttrOutcome × List (String × Nat) × Bool :=
  match findVal cache filename with
  | some size => (AttrOutcome.ok size, cache, false)
  | none =>
    if inode.isNone ∨ url.isNone then (AttrOutcome.fileNotFound, cache, false)
    else
      let size := head_result.getD 0
      (AttrOutcome.ok size, (filename, size) :: cache, true)

/-- An operation on `file_chunk_cache`: a lookup (`__getitem__` or `get`) or
an insertion (`__setitem__`), the only two ways the source touches it. -/
inductive CacheOp
  | get (k : ChunkKey)
  | put (k : ChunkKey) (v : PyObj)

/-- Apply one cache operation at the configured maximum size. -/
def applyOp (c : List (ChunkKey × PyObj)) : CacheOp → List (ChunkKey × PyObj)
  | CacheOp.get k => (lruGet c k).2
  | CacheOp.put k v => lruInsert NUM_CACHE_CHUNKS c k v

/-- Apply a sequence of cache operations, oldest first. -/
def applyOps (ops : List CacheOp) (c : List (ChunkKey × PyObj)) :
    List (ChunkKey × PyObj) :=
  ops.foldl applyOp c

/-- The keys of a cache in recency order. -/
def cacheKeys (c : List (ChunkKey × PyObj)) : List ChunkKey :=
  c.map Prod.fst

/-- A full cache with `NUM_CACHE_CHUNKS` distinct keys, used to instantiate
the eviction half of the cache-bound theorem. -/
def fullCache : List (ChunkKey × PyObj) :=
  (List.range NUM_CACHE_CHUNKS).map (fun i => (("u", i), PyObj.bytes []))

/-- For a positive divisor, ceiling division then multiplication covers the
dividend: the chunk offsets produced by `pyRange` reach past the read end. -/
theorem ceil_mul_ge (d s : Nat) (hs : 0 < s) : d ≤ ((d + s - 1) / s) * s := by
  have h := Nat.div_add_mod (d + s - 1) s
  have h2 : (d + s - 1) % s < s := Nat.mod_lt _ hs
  rw [Nat.mul_comm]
  omega

/-- Flattening `n` consecutive chunk windows of width `c` starting at `a`
yields the contiguous window of width `c * n` starting at `a`. -/
theorem flatten_chunk_map (l : Bytes) (c : Nat) :
    ∀ (n a : Nat),
      ((List.range n).map (fun i => (l.drop (a + c * i)).take c)).flatten
        = (l.drop a).take (c * n) := by
  intro n
  induction n with
  | zero => intro a; simp
  | succ m ih =>
    intro a
    rw [List.range_succ, List.map_append, List.flatten_append, ih]
    simp only [List.map_cons, List.map_nil, List.flatten_cons, List.flatten_nil,
      List.append_nil]
    rw [Nat.mul_succ, List.take_add]
    congr 1
    rw [← List.drop_drop]

/-- When the skip does not exceed the first chunk, the read assembly loop is
dropping the skip from the flattened chunk list. -/
theorem assemble_eq_flatten (skip : Nat) (c : Bytes) (rest : List Bytes)
    (h : skip ≤ c.length) :
    assemble skip (c :: rest) = ((c :: rest).flatten).drop skip := by
  simp only [assemble, List.flatten_cons]
  rw [List.drop_append_of_le_length h]

/-- The read assembly of `httpfs_read` is byte-exact for any positive chunk
size, assuming the origin serves exact ranges. -/
theorem httpfs_read_correct (c : Nat) (hc : 0 < c) (origin : Bytes) (off size : Nat)
    (h : off + size ≤ origin.length) :
    httpfs_read c origin off size = (origin.drop off).take size := by
  rcases Nat.eq_zero_or_pos size with hsz | hsz
  · subst hsz
    simp [httpfs_read]
  · have hmodle : off % c ≤ off := Nat.mod_le off c
    have hmodlt : off % c < c := Nat.mod_lt _ hc
    have hofflt : off < origin.length := by omega
    have hn1 : 1 ≤ (off + size - (off - off % c) + c - 1) / c := by
      rw [Nat.one_le_div_iff hc]; omega
    obtain ⟨m, hm⟩ : ∃ m, (off + size - (off - off % c) + c - 1) / c = m + 1 :=
      ⟨(off + size - (off - off % c) + c - 1) / c - 1, by omega⟩
    have hcover : off + size - (off - off % c)
        ≤ ((off + size - (off - off % c) + c - 1) / c) * c :=
      ceil_mul_ge _ c hc
    have hro : read_offsets c off size
        = (List.range ((off + size - (off - off % c) + c - 1) / c)).map
            (fun i => (off - off % c) + c * i) := by
      simp only [read_offsets, pyRange]
      rw [hm]
      simp [List.range_succ_eq_map]
    have hchunks : (read_offsets c off size).map (fun o => fetch_chunk origin o c)
        = (List.range ((off + size - (off - off % c) + c - 1) / c)).map
            (fun i => (origin.drop ((off - off % c) + c * i)).take c) := by
      rw [hro, List.map_map]
      rfl
    have hcons : (List.range ((off + size - (off - off % c) + c - 1) / c)).map
          (fun i => (origin.drop ((off - off % c) + c * i)).take c)
        = ((origin.drop (off - off % c)).take c)
            :: (List.range m).map
                (fun i => (origin.drop ((off - off % c) + c * (i + 1))).take c) := by
      rw [hm, List.range_succ_eq_map, List.map_cons, List.map_map]
      simp [Function.comp, Nat.succ_eq_add_one]
    have hsklen : off - (off - off % c) ≤ ((origin.drop (off - off % c)).take c).length := by
      rw [List.length_take, List.length_drop]
      have h1 : off - (off - off % c) < c := by omega
      have h2 : off - (off - off % c) < origin.length - (off - off % c) := by omega
      omega
    simp only [httpfs_read]
    rw [hchunks, hcons, assemble_eq_flatten _ _ _ hsklen, ← hcons,
      flatten_chunk_map, List.drop_take, List.drop_drop]
    have hoffeq : off - off % c + (off - (off - off % c)) = off := by omega
    rw [hoffeq, List.take_take]
    have hcover' : off + size - (off - off % c)
        ≤ c * ((off + size - (off - off % c) + c - 1) / c) := by
      rw [Nat.mul_comm]; exact hcover
    have hminsz : size ⊓ (c * ((off + size - (off - off % c) + c - 1) / c)
        - (off - (off - off % c))) = size :=
      Nat.min_eq_left (by omega)
    rw [hminsz]

/-- C1: byte fidelity of the read assembler.  For every origin and every
(offset, length) with offset + length not exceeding the content length,
assuming each chunk fetch returns exactly the origin's bytes for its
requested range, `HTTPFS.read` returns exactly the origin's bytes at
[offset, offset + length): the first covering chunk is taken from
offset - aligned-start, subsequent chunks whole, and the concatenation is
trimmed to length bytes. -/
theorem C1_read_byte_fidelity (origin : Bytes) (s : FSState) (off size : Nat)
    (h : off + size ≤ origin.length) :
    (HTTPFS.read origin s off size).1 = (origin.drop off).take size := by
  have hr := httpfs_read_correct DEFAULT_CHUNK_SIZE (by decide) origin off size h
  simpa [HTTPFS.read] using hr

/-- Witness for C1 at a concrete input. -/
theorem C1_read_byte_fidelity_witness :
    0 + 1 ≤ ([5] : Bytes).length ∧
    (HTTPFS.read [5] ⟨[], [], []⟩ 0 1).1 = (([5] : Bytes).drop 0).take 1 :=
  ⟨by decide, C1_read_byte_fidelity [5] ⟨[], [], []⟩ 0 1 (by decide)⟩

/-- C2: the claim that no two fetches for the same chunk key are ever in
flight simultaneously fails on the code.  `HTTPFS.read` issues its GETs via
`fetch_chunks_sync` unconditionally, without consulting `ongoing_requests`
or `file_chunk_cache`: two read calls covering chunk (url, 0) — the second
here evaluated in a state in which a fetch for that very key is already
recorded as in flight — both issue a GET for offset 0, so the origin sees
two fetches for one chunk key. -/
theorem C2_read_duplicates_inflight_fetch :
    (((HTTPFS.read [] ⟨[], [], []⟩ 500 64).2.1) ++
        ((HTTPFS.read [] ⟨[], [(("u", 0), false)], []⟩ 500 64).2.1)).count 0 = 2 := by
  decide

/-- C3: the claim that the foreground read path goes through the block cache
fails on the code.  Reading (0, 1) twice in sequence returns the right byte
both times, but the first read leaves `file_chunk_cache` empty (nothing is
inserted) and the two calls together issue two GETs for chunk offset 0
instead of the one the claim requires. -/
theorem C3_read_bypasses_cache :
    (HTTPFS.read [7] ⟨[], [], []⟩ 0 1).1 = [7] ∧
    ((HTTPFS.read [7] ⟨[], [], []⟩ 0 1).2.2).file_chunk_cache = [] ∧
    (((HTTPFS.read [7] ⟨[], [], []⟩ 0 1).2.1) ++
        ((HTTPFS.read [7] ((HTTPFS.read [7] ⟨[], [], []⟩ 0 1).2.2) 0 1).2.1)).count 0
      = 2 := by
  refine ⟨rfl, rfl, by decide⟩

/-- C4: the claim that a failing leader signals the handle, removes the key
from the in-flight table and leaves the key absent from cache and table
fails on the code.  At a concrete leader invocation (key neither cached nor
in flight) the fetch raises, the exception propagates, and the final state
still holds the key in `ongoing_requests` with its event unsignalled. -/
theorem C4_leader_failure_poisons_inflight :
    get_file_chunk (fun _ => Except.ok [1, 2]) ⟨[], [], []⟩ "u" 0 64
      = (ChunkOutcome.err PyErr.typeError, ⟨[], [(("u", 0), false)], []⟩) := rfl

/-- C5 counterexample: a follower that is signalled and finds the key absent
from the cache does not fail with a fetch error as claimed — it returns the
empty bytes object successfully. -/
theorem C5_follower_miss_counterexample :
    get_file_chunk (fun _ => Except.error PyErr.fetchError)
        ⟨[], [(("u", 0), true)], []⟩ "u" 0 64
      = (ChunkOutcome.ok (PyObj.bytes []), ⟨[], [(("u", 0), true)], []⟩) := rfl

/-- C5 (amended): a caller that finds the key cached returns the cached
bytes; a signalled follower that finds the key absent returns the empty
bytes object (not an error); and with an in-flight handle present the call
never invokes its own fetch — the outcome is independent of the fetch
function. -/
theorem C5_follower_outcome (fetch fetch' : Nat → Except PyErr Bytes) (s : FSState)
    (url : String) (off csz : Nat) (v : PyObj)
    (hev : findVal s.ongoing_requests (url, off) = some true) :
    (findVal s.file_chunk_cache (url, off) = some v →
      (get_file_chunk fetch s url off csz).1 = ChunkOutcome.ok v) ∧
    (findVal s.file_chunk_cache (url, off) = none →
      get_file_chunk fetch s url off csz = (ChunkOutcome.ok (PyObj.bytes []), s)) ∧
    get_file_chunk fetch s url off csz = get_file_chunk fetch' s url off csz := by
  refine ⟨fun hv => ?_, fun hv => ?_, ?_⟩
  · simp [get_file_chunk, lruGet, hv]
  · simp [get_file_chunk, lruGet, hv, hev, follower_resume]
  · rcases hfv : findVal s.file_chunk_cache (url, off) with _ | v'
    · simp [get_file_chunk, lruGet, hfv, hev]
    · simp [get_file_chunk, lruGet, hfv]

/-- Witness for C5 (amended) at concrete inputs: a cache hit returns the
cached bytes; a signalled follower with a cache miss returns empty bytes. -/
theorem C5_follower_outcome_witness :
    ((get_file_chunk (fun _ => Except.ok [])
        ⟨[(("u", 0), PyObj.bytes [9])], [(("u", 0), true)], []⟩ "u" 0 64).1
      = ChunkOutcome.ok (PyObj.bytes [9])) ∧
    (get_file_chunk (fun _ => Except.ok []) ⟨[], [(("u", 1), true)], []⟩ "u" 1 64
      = (ChunkOutcome.ok (PyObj.bytes []), ⟨[], [(("u", 1), true)], []⟩)) :=
  ⟨(C5_follower_outcome (fun _ => Except.ok []) (fun _ => Except.ok [])
      ⟨[(("u", 0), PyObj.bytes [9])], [(("u", 0), true)], []⟩ "u" 0 64
      (PyObj.bytes [9]) rfl).1 rfl,
   (C5_follower_outcome (fun _ => Except.ok []) (fun _ => Except.ok [])
      ⟨[], [(("u", 1), true)], []⟩ "u" 1 64 (PyObj.bytes []) rfl).2.1 rfl⟩

/-- C6: the claim that both prefetch triggers check the per-URL active token
fails on the code.  With a worker token installed for the url,
`maybe_prefetch` (the read-driven trigger) still spawns a new worker — it
never consults `prefetch_threads`; only the open-time trigger declines. -/
theorem C6_read_trigger_ignores_token :
    maybe_prefetch ⟨[], [], ["u"]⟩ "u" 0
      = some (0, DEFAULT_CHUNK_SIZE, MAX_PREFETCH_AHEAD) ∧
    open_spawn ⟨[], [], ["u"]⟩ "u" 4096 = (none, ⟨[], [], ["u"]⟩) :=
  ⟨rfl, rfl⟩

/-- C7: the claim that a prefetch worker clears its per-URL token on every
termination fails on the code.  A worker whose batch fetch fails propagates
the exception past the token cleanup: afterwards `prefetch_threads` still
contains the url, so no future worker can be started for it by the open-time
trigger. -/
theorem C7_prefetch_failure_leaks_token :
    prefetch (fun _ => Except.error PyErr.fetchError) ⟨[], [], ["u"]⟩ "u" 0 64 128
      = (some PyErr.fetchError, ⟨[], [], ["u"]⟩) := rfl

/-- C8 counterexample: after a failed HEAD probe the zero-size attribute is
inserted into `file_attributes_cache`, and a subsequent query — with the
origin now reporting size 42 — returns the cached zero without issuing the
probe (third component false), contradicting the no-negative-caching claim. -/
theorem C8_negative_caching_counterexample :
    get_file_attr none (some 2) (some "h") [] "f"
      = (AttrOutcome.ok 0, [("f", 0)], true) ∧
    get_file_attr (some 42) (some 2) (some "h") [("f", 0)] "f"
      = (AttrOutcome.ok 0, [("f", 0)], false) :=
  ⟨rfl, rfl⟩

/-- C8 (amended): when the HEAD probe fails, the size is reported as zero for
that attempt and the zero-size attribute is cached like any success, so every
subsequent attribute query returns the cached zero without re-issuing the
probe, whatever the origin would now report. -/
theorem C8_head_failure_is_cached (head2 : Option Nat) (inode : Nat) (url : String)
    (cache : List (String × Nat)) (filename : String)
    (h : findVal cache filename = none) :
    get_file_attr none (some inode) (some url) cache filename
      = (AttrOutcome.ok 0, (filename, 0) :: cache, true) ∧
    get_file_attr head2 (some inode) (some url) ((filename, 0) :: cache) filename
      = (AttrOutcome.ok 0, (filename, 0) :: cache, false) := by
  constructor
  · simp [get_file_attr, h]
  · simp [get_file_attr, findVal]

/-- Witness for C8 (amended) at a concrete input. -/
theorem C8_head_failure_is_cached_witness :
    findVal ([] : List (String × Nat)) "f" = none ∧
    (get_file_attr none (some 2) (some "h") [] "f"
        = (AttrOutcome.ok 0, [("f", 0)], true) ∧
      get_file_attr (some 42) (some 2) (some "h") [("f", 0)] "f"
        = (AttrOutcome.ok 0, [("f", 0)], false)) :=
  ⟨rfl, C8_head_failure_is_cached (some 42) 2 "h" [] "f" rfl⟩

/-- Erasing a present key strictly shrinks an association list. -/
theorem eraseKey_length_lt {κ α : Type} [DecidableEq κ] (c : List (κ × α)) (k : κ)
    (h : (findVal c k).isSome) : (eraseKey c k).length < c.length := by
  induction c with
  | nil => simp [findVal] at h
  | cons e rest ih =>
    obtain ⟨a, b⟩ := e
    by_cases hk : a = k
    · subst hk
      have he : eraseKey ((a, b) :: rest) a = eraseKey rest a := by
        simp [eraseKey, List.filter]
      rw [he]
      calc (eraseKey rest a).length ≤ rest.length := List.length_filter_le _ _
        _ < ((a, b) :: rest).length := by simp
    · have he : eraseKey ((a, b) :: rest) k = (a, b) :: eraseKey rest k := by
        simp [eraseKey, List.filter, hk]
      have hf : (findVal rest k).isSome := by
        simpa [findVal, hk] using h
      rw [he]
      simpa using ih hf

/-- A single cache operation preserves the resident-count bound. -/
theorem applyOp_length_le (c : List (ChunkKey × PyObj)) (op : CacheOp)
    (h : c.length ≤ NUM_CACHE_CHUNKS) : (applyOp c op).length ≤ NUM_CACHE_CHUNKS := by
  cases op with
  | get k =>
    rcases hf : findVal c k with _ | v
    · simpa [applyOp, lruGet, hf] using h
    · have hlt := eraseKey_length_lt c k (by simp [hf])
      simp only [applyOp, lruGet, hf, List.length_cons]
      omega
  | put k v =>
    rcases hf : findVal c k with _ | v'
    · by_cases hfull : NUM_CACHE_CHUNKS ≤ c.length
      · have hNpos : 0 < NUM_CACHE_CHUNKS := by decide
        simp only [applyOp, lruInsert, hf, Option.isSome_none, Bool.false_eq_true,
          if_false, if_pos hfull, List.length_cons, List.length_dropLast]
        omega
      · simp only [applyOp, lruInsert, hf, Option.isSome_none, Bool.false_eq_true,
          if_false, if_neg hfull, List.length_cons]
        omega
    · have hlt := eraseKey_length_lt c k (by simp [hf])
      simp only [applyOp, lruInsert, hf, Option.isSome_some, if_true, List.length_cons]
      omega

/-- A sequence of cache operations preserves the resident-count bound. -/
theorem applyOps_length_le (ops : List CacheOp) :
    ∀ c : List (ChunkKey × PyObj), c.length ≤ NUM_CACHE_CHUNKS →
      (applyOps ops c).length ≤ NUM_CACHE_CHUNKS := by
  induction ops with
  | nil => intro c h; simpa [applyOps] using h
  | cons op rest ih =>
    intro c h
    have hstep := applyOp_length_le c op h
    simpa [applyOps, List.foldl_cons] using ih _ hstep

/-- C9: cache bound invariant.  After every sequence of cache operations
(lookups and insertions, as issued by foreground fetches and prefetch
batches) starting from the empty cache, the number of resident chunks never
exceeds NUM_CACHE_CHUNKS (200 MiB / 2 MiB = 100 slots); and an insertion of
a fresh key into a full cache evicts exactly the least-recently-used entry,
keeping every other key in recency order. -/
theorem C9_cache_bound :
    (∀ ops : List CacheOp, (applyOps ops []).length ≤ NUM_CACHE_CHUNKS) ∧
    (∀ (c : List (ChunkKey × PyObj)) (k : ChunkKey) (v : PyObj),
      c.length = NUM_CACHE_CHUNKS → findVal c k = none →
      cacheKeys (lruInsert NUM_CACHE_CHUNKS c k v) = k :: (cacheKeys c).dropLast) := by
  constructor
  · intro ops
    exact applyOps_length_le ops [] (by simp)
  · intro c k v hlen hnone
    simp only [lruInsert, hnone, Option.isSome_none, Bool.false_eq_true, if_false,
      if_pos (le_of_eq hlen.symm)]
    simp [cacheKeys, List.map_dropLast]

/-- Witness for C9 at concrete inputs: a one-insertion history respects the
bound, and inserting a fresh key into the concrete full cache evicts its
least-recently-used entry. -/
theorem C9_cache_bound_witness :
    ((applyOps [CacheOp.put ("u", 0) (PyObj.bytes [1])] []).length ≤ NUM_CACHE_CHUNKS) ∧
    (fullCache.length = NUM_CACHE_CHUNKS ∧
      findVal fullCache ("u", NUM_CACHE_CHUNKS) = none ∧
      cacheKeys (lruInsert NUM_CACHE_CHUNKS fullCache ("u", NUM_CACHE_CHUNKS)
          (PyObj.bytes [2]))
        = ("u", NUM_CACHE_CHUNKS) :: (cacheKeys fullCache).dropLast) :=
  ⟨C9_cache_bound.1 [CacheOp.put ("u", 0) (PyObj.bytes [1])],
   by decide, by decide,
   C9_cache_bound.2 fullCache ("u", NUM_CACHE_CHUNKS) (PyObj.bytes [2])
     (by decide) (by decide)⟩

/-- C10: every call to `get_file_chunk` that reaches the leader branch (key
neither cached nor in flight) fails with a type error instead of returning
the chunk's bytes, because the single integer chunk offset is passed where
`fetch_chunks_sync` expects a list and the async fetcher iterates over it;
the leader branch therefore never inserts bytes into the cache, and the
unhandled exception leaves the key's in-flight entry installed with its
event unsignalled. -/
theorem C10_leader_branch_type_error (fetch : Nat → Except PyErr Bytes) (s : FSState)
    (url : String) (off csz : Nat)
    (hc : findVal s.file_chunk_cache (url, off) = none)
    (ho : findVal s.ongoing_requests (url, off) = none) :
    get_file_chunk fetch s url off csz
      = (ChunkOutcome.err PyErr.typeError,
         { s with ongoing_requests := ((url, off), false) :: s.ongoing_requests }) := by
  simp [get_file_chunk, lruGet, hc, ho, fetch_chunks_sync, fetch_chunks_async]

/-- Witness for C10 at a concrete input. -/
theorem C10_leader_branch_type_error_witness :
    findVal (FSState.mk [] [] []).file_chunk_cache ("u", 64) = none ∧
    findVal (FSState.mk [] [] []).ongoing_requests ("u", 64) = none ∧
    get_file_chunk (fun o => Except.ok [o]) ⟨[], [], []⟩ "u" 64 64
      = (ChunkOutcome.err PyErr.typeError, ⟨[], [(("u", 64), false)], []⟩) :=
  ⟨rfl, rfl,
   C10_leader_branch_type_error (fun o => Except.ok [o]) ⟨[], [], []⟩ "u" 64 64 rfl rfl⟩
